import Mathlib

/-!
Shallow embedding of `src/retrieval/BM25Retrieval.py` (class `BM25_PLUS`)
together with the parts of the third-party `rank_bm25` library
(`BM25.__init__`/`_initialize`, `BM25Plus._calc_idf`, `BM25Plus.get_scores`)
that the class calls into.

Modelling conventions:
- Python floats are modelled as rationals (`ℚ`); `math.log` is kept as an
  explicit parameter `mlog : ℚ → ℚ` of every definition that needs it, since
  the logarithm is transcendental.  None of the verified properties depend on
  the value of the logarithm; concrete instances use `mlog0 := fun x => x - 1`,
  which has the same sign and the same zero set as the real logarithm on
  positive arguments (zero exactly at 1, positive beyond 1).
- Python exceptions are modelled with `Except PyError`; each constructor of
  `PyError` names the concrete Python exception it stands for.
- `np.argsort` (ascending) is modelled as the stable ascending argsort, i.e.
  the indices sorted lexicographically by (value, index); `np.sort` as the
  ascending sort; `[::-1]` as `List.reverse`; Python slicing `xs[:k]` as
  `pySliceTo` (including negative-`k` semantics).
- File I/O (`pickle.load`/`pickle.dump` and `os.path.isfile`) is modelled by a
  `FileSystem` record holding the deserialized contents of each cache file
  when it exists, and write calls are recorded in a trace of `FSOp` events so
  that properties about the write discipline (atomic or not) can be stated.
-/

/-- Tokens are strings (the output alphabet of the tokenizer collaborator). -/
abbrev Token := String

/-- Python iteration over a `str` yields its characters, each a length-one
string.  `rank_bm25`'s `get_scores` does `for q in query`, so when
`get_relevant_doc` passes the raw query string this is the sequence of terms
actually scored. -/
def strIter (s : String) : List Token := s.data.map (fun c => String.mk [c])

/-- Python exceptions raised by the embedded code.
- `assertNotReady`: the `assert self.bm25 is not None` on line 96 of
  `retrieve` (an `AssertionError`).
- `assertDegenerateQuery`: the `assert np.sum(...) != 0` in
  `get_relevant_doc` (lines 152-154) and `get_relevant_doc_bulk`
  (lines 198-200) (an `AssertionError`).
- `zeroDivision`: the `ZeroDivisionError` raised by `rank_bm25`'s
  `BM25._initialize` when computing `avgdl = num_doc / corpus_size` on an
  empty corpus.
- `indexError`: Python list indexing out of range. -/
inductive PyError where
  | assertNotReady
  | assertDegenerateQuery
  | zeroDivision
  | indexError
deriving DecidableEq, Repr

/-- The state of a constructed `rank_bm25.BM25Plus` object: corpus size,
average document length, per-document term-frequency dictionaries
(`doc_freqs`, a missing key reading as 0, as in `doc.get(q) or 0`), the idf
table (`self.idf.get(q) or 0`: 0 for out-of-vocabulary terms), and the
per-document token counts `doc_len`. -/
structure BM25Plus where
  corpus_size : ℕ
  avgdl : ℚ
  doc_freqs : List (Token → ℕ)
  idf : Token → ℚ
  doc_len : List ℕ

/-- Constructor of `rank_bm25.BM25Plus` with default parameters, as called on
line 69 (`BM25Plus(tokenized_corpus)`).  `BM25._initialize` computes
`doc_len`, `doc_freqs`, the document-frequency table `nd` and
`avgdl = num_doc / corpus_size`; on a zero-document corpus the division
raises a `ZeroDivisionError`, so no object is constructed.
`BM25Plus._calc_idf` sets `idf[w] = log((corpus_size + 1) / nd[w])` for every
word of the corpus vocabulary; `idf` here already folds in the
`self.idf.get(q) or 0` read, returning 0 for out-of-vocabulary words. -/
def BM25Plus.build (mlog : ℚ → ℚ) (corpus : List (List Token)) :
    Except PyError BM25Plus :=
  if corpus.length = 0 then .error .zeroDivision
  else .ok
    { corpus_size := corpus.length
      avgdl := ((corpus.map List.length).sum : ℚ) / (corpus.length : ℚ)
      doc_freqs := corpus.map (fun doc => fun w => doc.count w)
      idf := fun w =>
        if corpus.any (fun doc => doc.contains w) then
          mlog ((corpus.length + 1 : ℚ) /
            (corpus.countP (fun doc => doc.contains w) : ℚ))
        else 0
      doc_len := corpus.map List.length }

/-- Scoring function `rank_bm25.BM25Plus.get_scores` with the library's
default parameters `k1 = 1.5`, `b = 0.75`, `delta = 1`:
for each document `d`, the sum over the iterated query terms `q` of
`idf(q) * (delta + (f(q,d)*(k1+1)) / (k1*(1 - b + b*|d|/avgdl) + f(q,d)))`.
The numpy accumulation over terms is re-associated into a per-document sum,
which over `ℚ` is the same value. -/
def BM25Plus.get_scores (bm : BM25Plus) (query : List Token) : List ℚ :=
  (List.range bm.corpus_size).map (fun d =>
    (query.map (fun q =>
      let q_freq : ℚ := ((bm.doc_freqs.getD d (fun _ => 0)) q : ℚ)
      let dl : ℚ := (bm.doc_len.getD d 0 : ℚ)
      bm.idf q * (1 + (q_freq * (3/2 + 1)) /
        ((3/2) * (1 - 3/4 + (3/4) * dl / bm.avgdl) + q_freq)))).sum)

/-- Python slicing `xs[:k]` for an arbitrary integer `k`: the first `k`
elements when `k ≥ 0`, and all but the last `-k` elements when `k < 0`. -/
def pySliceTo (xs : List α) (k : ℤ) : List α :=
  if 0 ≤ k then xs.take k.toNat else xs.take (xs.length - (-k).toNat)

/-- Comparison used by the stable ascending argsort of a score vector `v`:
index `i` precedes index `j` when its score is smaller, or the scores are
equal and `i ≤ j`.  A stable ascending argsort (numpy's deterministic
tie-breaking) orders `List.range v.length` exactly by this relation. -/
def idxLE (v : List ℚ) (i j : ℕ) : Prop :=
  v.getD i 0 < v.getD j 0 ∨ (v.getD i 0 = v.getD j 0 ∧ i ≤ j)

instance instDecIdxLE (v : List ℚ) : DecidableRel (idxLE v) := fun i j => by
  unfold idxLE; infer_instance

instance instTotalIdxLE (v : List ℚ) : IsTotal ℕ (idxLE v) where
  total i j := by
    unfold idxLE
    rcases lt_trichotomy (v.getD i 0) (v.getD j 0) with h | h | h
    · exact Or.inl (Or.inl h)
    · rcases Nat.le_total i j with hij | hij
      · exact Or.inl (Or.inr ⟨h, hij⟩)
      · exact Or.inr (Or.inr ⟨h.symm, hij⟩)
    · exact Or.inr (Or.inl h)

instance instTransIdxLE (v : List ℚ) : IsTrans ℕ (idxLE v) where
  trans i j l hij hjl := by
    unfold idxLE at *
    rcases hij with h1 | ⟨h1, h1'⟩ <;> rcases hjl with h2 | ⟨h2, h2'⟩
    · exact Or.inl (h1.trans h2)
    · exact Or.inl (h2 ▸ h1)
    · exact Or.inl (h1 ▸ h2)
    · exact Or.inr ⟨h1.trans h2, h1'.trans h2'⟩

/-- Model of `np.sort(v)[::-1]`: sort ascending, then reverse. -/
def npSortDesc (v : List ℚ) : List ℚ :=
  (v.insertionSort (· ≤ ·)).reverse

/-- Model of `np.argsort(v)[::-1]`: stable ascending argsort of the index
range (equivalently, the indices sorted by `idxLE v`), then reversed. -/
def npArgsortDesc (v : List ℚ) : List ℕ :=
  ((List.range v.length).insertionSort (idxLE v)).reverse

/-- Top-k selection as performed by `get_relevant_doc` lines 156-159 (and
`get_relevant_doc_bulk` lines 193-197): descending value sort and descending
argsort, each sliced with `[:k]`. -/
def top_k (v : List ℚ) (k : ℤ) : List ℚ × List ℕ :=
  (pySliceTo (npSortDesc v) k, pySliceTo (npArgsortDesc v) k)

/-- Method `get_relevant_doc` (lines 138-160).  The raw query string is passed
to `get_scores` (line 151), which iterates its characters; the
`assert np.sum(query_scores) != 0` raises on an all-zero score vector;
otherwise the top-k slices of the sorted scores and indices are returned. -/
def get_relevant_doc (bm : BM25Plus) (query : String) (k : ℤ) :
    Except PyError (List ℚ × List ℕ) :=
  let query_scores := bm.get_scores (strIter query)
  if query_scores.sum ≠ 0 then .ok (top_k query_scores k)
  else .error .assertDegenerateQuery

/-- File-system write events recorded by the embedded cache code.
`writeFinal p` is `open(p, "wb")` followed by a dump directly at the final
path `p`; `writeTemp`/`rename` are the events an atomic write discipline
(write to a temporary name, then rename over the final path) would produce —
the source never emits them, and the predicate `writesAtomicallyTo` below is
stated in terms of them. -/
inductive FSOp where
  | writeFinal (path : String)
  | writeTemp (path : String)
  | rename (src dst : String)
deriving DecidableEq, Repr

/-- Whether an event renames something onto `path`. -/
def renamesTo (op : FSOp) (path : String) : Bool :=
  match op with
  | .rename _ dst => dst = path
  | _ => false

/-- A trace serializes atomically to `path` when it never writes directly at
`path` and installs the contents by a rename onto `path`. -/
def writesAtomicallyTo (ops : List FSOp) (path : String) : Bool :=
  (!ops.contains (FSOp.writeFinal path)) && ops.any (fun op => renamesTo op path)

/-- Observable state of the cache files: the deserialized contents of
`bm25.bin`, `BM25_score.bin` and `BM25_indice.bin` when each exists
(`os.path.isfile` is modelled by `Option.isSome`). -/
structure FileSystem where
  bm25_cache : Option BM25Plus
  score_cache : Option (List (List ℚ))
  indice_cache : Option (List (List ℕ))

/-- Method `get_sparse_embedding` (lines 47-72): if `bm25.bin` exists its
pickle is loaded and becomes `self.bm25` (the corpus and tokenizer are not
consulted); otherwise the corpus is tokenized document by document as
`tokenize_fn(title + text)`, `BM25Plus` is constructed, and the object is
pickled by a single direct write at the final path (lines 70-71). -/
def get_sparse_embedding (mlog : ℚ → ℚ) (tokenize_fn : String → List Token)
    (wiki_title wiki_text : List String) (fs : FileSystem) :
    Except PyError (BM25Plus × List FSOp) :=
  match fs.bm25_cache with
  | some bm => .ok (bm, [])
  | none => do
    let tokenized_corpus :=
      (wiki_title.zip wiki_text).map (fun tt => tokenize_fn (tt.1 ++ tt.2))
    let bm ← BM25Plus.build mlog tokenized_corpus
    .ok (bm, [FSOp.writeFinal "bm25.bin"])

/-- Method `get_relevant_doc_bulk` (lines 162-208): when both batch cache
files exist, their pickles are returned as-is (the queries, `k`, the
tokenizer and the index are never consulted); otherwise each query is
tokenized with `tokenize_fn`, scored, sorted and sliced, the
`assert np.sum(doc_scores) != 0` is checked over all retained scores, and
both result lists are pickled by direct writes at their final paths. -/
def get_relevant_doc_bulk (bm : BM25Plus) (tokenize_fn : String → List Token)
    (fs : FileSystem) (queries : List String) (k : ℤ) :
    Except PyError ((List (List ℚ) × List (List ℕ)) × List FSOp) :=
  match fs.score_cache, fs.indice_cache with
  | some doc_scores, some doc_indices => .ok ((doc_scores, doc_indices), [])
  | _, _ =>
    let results := queries.map (fun query =>
      let query_scores := bm.get_scores (tokenize_fn query)
      top_k query_scores k)
    let doc_scores := results.map Prod.fst
    let doc_indices := results.map Prod.snd
    if (doc_scores.map List.sum).sum ≠ 0 then
      .ok ((doc_scores, doc_indices),
        [FSOp.writeFinal "BM25_score.bin", FSOp.writeFinal "BM25_indice.bin"])
    else .error .assertDegenerateQuery

/-- An input record of the HF `Dataset` consumed by `retrieve`'s batch mode:
the always-present `question` and `id` columns, and the `context`/`answers`
columns that are present only for train/validation data (`none` models the
key being absent from `example.keys()`). -/
structure Record where
  question : String
  id : String
  context : Option String
  answers : Option String
deriving DecidableEq, Repr

/-- A row of the `pd.DataFrame` built by `retrieve`'s batch mode
(lines 119-133): `none` in the last two fields models the key being absent
from the `tmp` dict. -/
structure OutRecord where
  question : String
  id : String
  context_id : List ℕ
  context : String
  original_context : Option String
  answers : Option String
deriving DecidableEq, Repr

/-- Argument of `retrieve`: a single query string, an HF `Dataset` of records,
or any value of another runtime type (the `isinstance` dispatch on lines
98/108 matches neither branch for such a value). -/
inductive QueryInput where
  | str (q : String)
  | dataset (examples : List Record)
  | other

/-- Result of `retrieve`: the `(doc_scores, passages)` tuple in single-query
mode, or the `cqas` data frame in batch mode. -/
inductive RetrieveResult where
  | single (doc_scores : List ℚ) (passages : List String)
  | batch (cqas : List OutRecord)
deriving DecidableEq

/-- Python list subscription `xs[i]` for a non-negative index: raises
`IndexError` when out of range. -/
def pyGet (xs : List α) (i : ℕ) : Except PyError α :=
  if h : i < xs.length then .ok (xs.get ⟨i, h⟩) else .error .indexError

/-- Left-to-right effectful map: models a Python `for` loop that appends one
result per element and propagates the first exception. -/
def mapME (f : α → Except PyError β) : List α → Except PyError (List β)
  | [] => .ok []
  | a :: as => do
    let b ← f a
    let bs ← mapME f as
    .ok (b :: bs)

/-- The `tmp` dict built for one batch example (lines 119-132): `question` and
`id` are copied, `context_id` is the retrieved index list, `context` is the
space-join of the retrieved passages, and `original_context`/`answers` are
set only when the input record carries BOTH a `context` and an `answers` key
(the `and` on line 129), in which case the input values are copied
verbatim. -/
def makeTmp (ex : Record) (ids : List ℕ) (texts : List String) : OutRecord :=
  { question := ex.question
    id := ex.id
    context_id := ids
    context := String.intercalate " " texts
    original_context :=
      if ex.context.isSome && ex.answers.isSome then ex.context else none
    answers :=
      if ex.context.isSome && ex.answers.isSome then ex.answers else none }

/-- Method `retrieve` (lines 74-136).  The `assert self.bm25 is not None`
on line 96 runs before anything else.  A string query goes through
`get_relevant_doc`; the print loop and the result comprehension subscript
`doc_scores[i]` and `wiki_text[doc_indices[i]]` for `i in range(topk)`.
A dataset goes through `get_relevant_doc_bulk` and builds one `tmp` record
per example, subscripting `doc_indices[idx]` and `wiki_text[pid]`.  Any
other argument type falls through both `isinstance` branches and the method
returns `None`. -/
def retrieve (bm25 : Option BM25Plus) (tokenize_fn : String → List Token)
    (wiki_text : List String) (fs : FileSystem)
    (query_or_dataset : QueryInput) (topk : ℤ) :
    Except PyError (Option RetrieveResult) :=
  match bm25 with
  | none => .error .assertNotReady
  | some bm =>
    match query_or_dataset with
    | .str q => do
      let (doc_scores, doc_indices) ← get_relevant_doc bm q topk
      let passages ← mapME (fun i => do
          let _ ← pyGet doc_scores i
          let pid ← pyGet doc_indices i
          pyGet wiki_text pid)
        (List.range topk.toNat)
      .ok (some (.single doc_scores passages))
    | .dataset examples => do
      let (pair, _ops) ←
        get_relevant_doc_bulk bm tokenize_fn fs
          (examples.map Record.question) topk
      let total ← mapME (fun p => do
          let ids ← pyGet pair.2 p.1
          let texts ← mapME (fun pid => pyGet wiki_text pid) ids
          .ok (makeTmp p.2 ids texts))
        examples.enum
      .ok (some (.batch total))
    | .other => .ok none

/-- Stand-in for `math.log` in concrete instances.  On positive arguments it
has the same zero set and sign as the real logarithm (zero exactly at 1,
positive beyond 1, negative below), which is all any verified property
depends on. -/
def mlog0 : ℚ → ℚ := fun x => x - 1

/-- Whitespace tokenizer used by concrete instances. -/
def tokW : String → List Token :=
  fun s => (s.data.splitOn ' ').map (fun cs => String.mk cs)

/-- Concrete tokenized corpus with word-level tokens. -/
def corpusW : List (List Token) := [["cat"], ["dog"]]

/-- Concrete tokenized corpus with character-level tokens (so that the raw
characters of a query can be in vocabulary). -/
def corpusC : List (List Token) := [["c", "a", "t"], ["d", "o", "g"]]

/-- Passage texts corresponding to `corpusW`. -/
def wikiW : List String := ["cat", "dog"]

/-- File-system state with no cache file present. -/
def fs0 : FileSystem := ⟨none, none, none⟩

/-- Concrete hand-written `BM25Plus` state (extensionally the index that
`BM25Plus.build mlog0 corpusW` produces), used to instantiate
universally-quantified theorems at a concrete index. -/
def bmLit : BM25Plus :=
  { corpus_size := 2
    avgdl := 1
    doc_freqs := [fun w => if w = "cat" then 1 else 0,
                  fun w => if w = "dog" then 1 else 0]
    idf := fun w => if w = "cat" ∨ w = "dog" then 2 else 0
    doc_len := [1, 1] }

/-- C4: retrieval before the index build (`self.bm25` still `None`) fails
with the readiness assertion on line 96 and performs no scoring: for every
query shape and every `topk`, `retrieve` is the readiness error outright. -/
theorem C4_retrieve_before_build_fails (tokenize_fn : String → List Token)
    (wiki_text : List String) (fs : FileSystem) (input : QueryInput)
    (topk : ℤ) :
    retrieve none tokenize_fn wiki_text fs input topk =
      .error .assertNotReady := rfl

/-- C10: once the index is present, calling `retrieve` with an argument that
is neither a string nor a `Dataset` falls through both `isinstance` branches
and returns `None` (no error). -/
theorem C10_other_input_returns_none (bm : BM25Plus)
    (tokenize_fn : String → List Token) (wiki_text : List String)
    (fs : FileSystem) (topk : ℤ) :
    retrieve (some bm) tokenize_fn wiki_text fs .other topk = .ok none := rfl

/-- C9: when both batch cache files exist, `get_relevant_doc_bulk` returns
exactly their deserialized contents with no file writes; the result is the
same for every index, tokenizer, query list and `k`, so the cached value is
independent of the call's arguments and no query is ever tokenized or
scored. -/
theorem C9_batch_cache_hit (bm bm' : BM25Plus)
    (tokenize_fn tokenize_fn' : String → List Token)
    (bc bc' : Option BM25Plus) (ds : List (List ℚ)) (di : List (List ℕ))
    (queries queries' : List String) (k k' : ℤ) :
    get_relevant_doc_bulk bm tokenize_fn ⟨bc, some ds, some di⟩ queries k =
      .ok ((ds, di), []) ∧
    get_relevant_doc_bulk bm tokenize_fn ⟨bc, some ds, some di⟩ queries k =
      get_relevant_doc_bulk bm' tokenize_fn' ⟨bc', some ds, some di⟩
        queries' k' :=
  ⟨rfl, rfl⟩

/-- C7: building from a zero-document corpus fails (the
`avgdl = num_doc / corpus_size` division in `rank_bm25`'s initialization
raises `ZeroDivisionError` — the failure the spec names `EmptyCorpusError`),
both at the `BM25Plus` constructor and through `get_sparse_embedding` on a
cold cache; no index object is ever produced. -/
theorem C7_empty_corpus_build_fails :
    (∀ mlog : ℚ → ℚ, BM25Plus.build mlog [] = .error .zeroDivision) ∧
    (∀ (mlog : ℚ → ℚ) (tokenize_fn : String → List Token)
      (sc : Option (List (List ℚ))) (ic : Option (List (List ℕ))),
      get_sparse_embedding mlog tokenize_fn [] [] ⟨none, sc, ic⟩ =
        .error .zeroDivision) :=
  ⟨fun _ => rfl, fun _ _ _ _ => rfl⟩

/-- C1 (counterexample): on the two-document corpus `corpusW`, the query
`"xz"` iterates to terms that are all out of vocabulary, its score vector is
exactly `[0, 0]`, and single-query retrieval raises the degenerate-query
assertion instead of returning the claimed all-zero top-k result. -/
theorem C1_counterexample :
    (BM25Plus.build mlog0 corpusW).map
        (fun bm => bm.get_scores (strIter "xz")) = .ok [0, 0] ∧
    (BM25Plus.build mlog0 corpusW).bind
        (fun bm => get_relevant_doc bm "xz" 1) =
      .error .assertDegenerateQuery := by
  have hq : strIter "xz" = ["x", "z"] := rfl
  constructor
  · simp [BM25Plus.build, BM25Plus.get_scores, hq, Except.map, mlog0,
      corpusW, List.range_succ]
  · simp [BM25Plus.build, BM25Plus.get_scores, get_relevant_doc, hq,
      Except.bind, mlog0, corpusW, List.range_succ]

/-- C1 (amended): a query all of whose iterated terms are out of vocabulary
(idf 0) yields an all-zero score vector, and `get_relevant_doc` then fails
the `assert np.sum(query_scores) != 0` with an `AssertionError` — it does
not return a top-k result. -/
theorem C1_amended_oov_query_asserts (bm : BM25Plus) (query : String) (k : ℤ)
    (h : ∀ t ∈ strIter query, bm.idf t = 0) :
    get_relevant_doc bm query k = .error .assertDegenerateQuery := by
  have hz : (bm.get_scores (strIter query)).sum = 0 := by
    apply List.sum_eq_zero
    intro x hx
    rw [BM25Plus.get_scores] at hx
    simp only [List.mem_map] at hx
    obtain ⟨d, _, rfl⟩ := hx
    apply List.sum_eq_zero
    intro y hy
    simp only [List.mem_map] at hy
    obtain ⟨t, ht, rfl⟩ := hy
    simp [h t ht]
  rw [get_relevant_doc]
  simp [hz]

/-- C1 (witness): the amended theorem applied to the concrete index `bmLit`
and the concrete all-out-of-vocabulary query `"xz"`. -/
theorem C1_witness :
    (∀ t ∈ strIter "xz", bmLit.idf t = 0) ∧
    get_relevant_doc bmLit "xz" 1 = .error .assertDegenerateQuery :=
  ⟨by decide, C1_amended_oov_query_asserts bmLit "xz" 1 (by decide)⟩

/-- Auxiliary: the descending value sort keeps the score vector's length. -/
theorem length_npSortDesc (v : List ℚ) : (npSortDesc v).length = v.length := by
  simp [npSortDesc, List.length_insertionSort]

/-- Auxiliary: the descending argsort has one entry per document. -/
theorem length_npArgsortDesc (v : List ℚ) :
    (npArgsortDesc v).length = v.length := by
  simp [npArgsortDesc, List.length_insertionSort]

/-- C2 (code behaviour at the failing input): the single-query path passes
the raw string to `get_scores`, which iterates characters, while the batch
path tokenizes with `tokenize_fn` first.  On `corpusW` with the whitespace
tokenizer and the query `"cat"`: the iterated terms differ from the
tokenizer's output, the single-query path scores the characters (all out of
vocabulary) and dies on the degenerate-query assertion, while the batch path
scores the token `"cat"` and succeeds with document 0 on top. -/
theorem C2_single_path_skips_tokenizer :
    strIter "cat" ≠ tokW "cat" ∧
    (BM25Plus.build mlog0 corpusW).bind
        (fun bm => get_relevant_doc bm "cat" 1) =
      .error .assertDegenerateQuery ∧
    (BM25Plus.build mlog0 corpusW).bind
        (fun bm => get_relevant_doc_bulk bm tokW fs0 ["cat"] 1) =
      .ok (([[4]], [[0]]),
        [FSOp.writeFinal "BM25_score.bin", FSOp.writeFinal "BM25_indice.bin"]) := by
  have hq : strIter "cat" = ["c", "a", "t"] := rfl
  have ht : tokW "cat" = ["cat"] := rfl
  refine ⟨by decide, ?_, ?_⟩
  · simp [BM25Plus.build, BM25Plus.get_scores, get_relevant_doc, hq,
      Except.bind, mlog0, corpusW, List.range_succ]
  · simp [BM25Plus.build, BM25Plus.get_scores, get_relevant_doc_bulk, ht,
      Except.bind, mlog0, corpusW, fs0, List.range_succ, top_k, pySliceTo,
      npSortDesc, npArgsortDesc, idxLE, List.insertionSort, List.orderedInsert]
    norm_num

/-- C5 (counterexample): on a cold cache, `get_sparse_embedding` succeeds and
its write trace is a single direct `open(path, "wb")`-style write at the
final path `bm25.bin` — no temporary file, no rename — so the serialization
is not atomic: a crash mid-write leaves a partial file visible at the final
path. -/
theorem C5_counterexample :
    (get_sparse_embedding mlog0 tokW ["A"] ["cat"] fs0).map
        (fun r => (r.2, writesAtomicallyTo r.2 "bm25.bin")) =
      .ok ([FSOp.writeFinal "bm25.bin"], false) := rfl

/-- C5 (amended): if the serialized index exists at the cache path it is
deserialized and returned without touching the corpus or the tokenizer (the
result and the empty write trace are the same for every corpus and
tokenizer); otherwise the index is built and serialized by one direct write
at the final path `bm25.bin`, which is not an atomic
write-temporary-then-rename. -/
theorem C5_amended (fs : FileSystem) :
    (∀ bm, fs.bm25_cache = some bm →
      ∀ (mlog mlog' : ℚ → ℚ) (tok tok' : String → List Token)
        (titles titles' texts texts' : List String),
        get_sparse_embedding mlog tok titles texts fs = .ok (bm, []) ∧
        get_sparse_embedding mlog tok titles texts fs =
          get_sparse_embedding mlog' tok' titles' texts' fs) ∧
    (fs.bm25_cache = none →
      ∀ (mlog : ℚ → ℚ) (tok : String → List Token) (titles texts : List String),
        (get_sparse_embedding mlog tok titles texts fs).map
            (fun r => (r.2, writesAtomicallyTo r.2 "bm25.bin")) =
          (BM25Plus.build mlog
              ((titles.zip texts).map (fun tt => tok (tt.1 ++ tt.2)))).map
            (fun _ => ([FSOp.writeFinal "bm25.bin"], false))) := by
  constructor
  · intro bm hbm mlog mlog' tok tok' titles titles' texts texts'
    constructor
    · rw [get_sparse_embedding, hbm]
    · rw [get_sparse_embedding, hbm, get_sparse_embedding, hbm]
  · intro hnone mlog tok titles texts
    rw [get_sparse_embedding, hnone]
    dsimp only
    cases hb : BM25Plus.build mlog
        ((titles.zip texts).map (fun tt => tok (tt.1 ++ tt.2))) with
    | error e => rfl
    | ok bm => rfl

/-- C5 (witness): the amended theorem applied once with a warm cache holding
`bmLit` (cache hit ignores corpus and tokenizer) and once with the cold cache
`fs0` and the one-document corpus `["A"]`/`["cat"]`. -/
theorem C5_witness :
    (get_sparse_embedding mlog0 tokW ["A"] ["cat"] ⟨some bmLit, none, none⟩ =
        .ok (bmLit, []) ∧
      get_sparse_embedding mlog0 tokW ["A"] ["cat"] ⟨some bmLit, none, none⟩ =
        get_sparse_embedding mlog0 tokW ["B"] ["dog"] ⟨some bmLit, none, none⟩) ∧
    (get_sparse_embedding mlog0 tokW ["A"] ["cat"] fs0).map
        (fun r => (r.2, writesAtomicallyTo r.2 "bm25.bin")) =
      (BM25Plus.build mlog0
          (((["A"] : List String).zip (["cat"] : List String)).map
            (fun tt => tokW (tt.1 ++ tt.2)))).map
        (fun _ => ([FSOp.writeFinal "bm25.bin"], false)) :=
  ⟨(C5_amended ⟨some bmLit, none, none⟩).1 bmLit rfl mlog0 mlog0 tokW tokW
      ["A"] ["B"] ["cat"] ["dog"],
    (C5_amended fs0).2 rfl mlog0 tokW ["A"] ["cat"]⟩

/-- C6 (counterexample): with the character-level corpus `corpusC`, the query
`"cat"` has a nonzero score vector, and requesting the top `k = 0` documents
does not fail with any error: the Python slices `[:0]` simply return the
empty score and index lists. -/
theorem C6_counterexample :
    (BM25Plus.build mlog0 corpusC).bind
        (fun bm => get_relevant_doc bm "cat" 0) = .ok ([], []) := by
  have hq : strIter "cat" = ["c", "a", "t"] := rfl
  simp [BM25Plus.build, BM25Plus.get_scores, get_relevant_doc, hq,
    Except.bind, mlog0, corpusC, List.range_succ, top_k, pySliceTo]
  norm_num

/-- C6 (amended): for `k ≤ 0` (and a query that survives the
degenerate-query assertion) `get_relevant_doc` raises no error at all:
Python slice semantics return the empty lists for `k = 0` and all but the
last `|k|` entries of the sorted lists for negative `k`. -/
theorem C6_amended (bm : BM25Plus) (q : String) (k : ℤ) (hk : k ≤ 0)
    (hnz : (bm.get_scores (strIter q)).sum ≠ 0) :
    get_relevant_doc bm q k =
      .ok (if k = 0 then ([], [])
        else ((npSortDesc (bm.get_scores (strIter q))).take
                ((bm.get_scores (strIter q)).length - k.natAbs),
              (npArgsortDesc (bm.get_scores (strIter q))).take
                ((bm.get_scores (strIter q)).length - k.natAbs))) := by
  rw [get_relevant_doc]
  simp only [hnz, if_true, ne_eq, not_false_iff]
  rcases eq_or_lt_of_le hk with hk0 | hkneg
  · subst hk0
    simp [top_k, pySliceTo]
  · have hne : ¬ k = 0 := by omega
    have hnn : ¬ 0 ≤ k := by omega
    have habs : (-k).toNat = k.natAbs := by omega
    simp [top_k, pySliceTo, hne, hnn, habs, length_npSortDesc,
      length_npArgsortDesc]

/-- Concrete hand-written index over character tokens (extensionally the
index `BM25Plus.build mlog0 corpusC` produces), for witnesses. -/
def bmC : BM25Plus :=
  { corpus_size := 2
    avgdl := 3
    doc_freqs := [fun w => if w = "c" ∨ w = "a" ∨ w = "t" then 1 else 0,
                  fun w => if w = "d" ∨ w = "o" ∨ w = "g" then 1 else 0]
    idf := fun w =>
      if w = "c" ∨ w = "a" ∨ w = "t" ∨ w = "d" ∨ w = "o" ∨ w = "g" then 2
      else 0
    doc_len := [3, 3] }

/-- C6 (witness): the amended theorem applied at the concrete index `bmC`,
the query `"cat"` and `k = -1`. -/
theorem C6_witness :
    (-1 : ℤ) ≤ 0 ∧ (bmC.get_scores (strIter "cat")).sum ≠ 0 ∧
    get_relevant_doc bmC "cat" (-1) =
      .ok (if (-1 : ℤ) = 0 then ([], [])
        else ((npSortDesc (bmC.get_scores (strIter "cat"))).take
                ((bmC.get_scores (strIter "cat")).length - (-1 : ℤ).natAbs),
              (npArgsortDesc (bmC.get_scores (strIter "cat"))).take
                ((bmC.get_scores (strIter "cat")).length - (-1 : ℤ).natAbs))) := by
  have hq : strIter "cat" = ["c", "a", "t"] := rfl
  have hsum : (bmC.get_scores (strIter "cat")).sum ≠ 0 := by
    simp [BM25Plus.get_scores, bmC, hq, List.range_succ]
    norm_num
  exact ⟨by decide, hsum, C6_amended bmC "cat" (-1) (by decide) hsum⟩

/-- Auxiliary: reading every position of a list back through `getD` over its
index range recovers the list. -/
theorem map_getD_range (v : List ℚ) :
    (List.range v.length).map (fun i => v.getD i 0) = v := by
  apply List.ext_getElem
  · simp
  · intro i h1 h2
    simp only [List.getElem_map, List.getElem_range]
    exact List.getD_eq_getElem v 0 h2

/-- Auxiliary: the descending value sort agrees pointwise with the values of
the descending argsort, i.e. `np.sort(v)[::-1]` equals `v` read back along
`np.argsort(v)[::-1]`. -/
theorem npSortDesc_eq_map_argsort (v : List ℚ) :
    npSortDesc v = (npArgsortDesc v).map (fun i => v.getD i 0) := by
  rw [npSortDesc, npArgsortDesc, List.map_reverse]
  congr 1
  haveI : IsAntisymm ℚ (fun x1 x2 : ℚ => x1 ≤ x2) :=
    ⟨fun _ _ h h' => le_antisymm h h'⟩
  refine List.eq_of_perm_of_sorted ?_ (List.sorted_insertionSort (· ≤ ·) v) ?_
  · have h1 : List.Perm (v.insertionSort (· ≤ ·)) v :=
      List.perm_insertionSort _ v
    have h2 : List.Perm
        (((List.range v.length).insertionSort (idxLE v)).map
          (fun i => v.getD i 0))
        ((List.range v.length).map (fun i => v.getD i 0)) :=
      (List.perm_insertionSort (idxLE v) (List.range v.length)).map
        (fun i => v.getD i 0)
    rw [map_getD_range] at h2
    exact h1.trans h2.symm
  · refine List.Pairwise.map (fun i => v.getD i 0) (fun a b hab => ?_)
      (List.sorted_insertionSort (idxLE v) (List.range v.length))
    rcases hab with h | ⟨h, _⟩
    · exact le_of_lt h
    · exact le_of_eq h

/-- C3 (counterexample): on the score vector `[5, 5]` with two tied
documents and `k = 2`, the returned index list is `[1, 0]` — the HIGHER
ordinal comes first, not the lower one as claimed (the ascending stable
argsort is reversed wholesale, reversing the order of ties as well). -/
theorem C3_counterexample :
    (top_k [(5 : ℚ), 5] 2).2 = [1, 0] ∧ (top_k [(5 : ℚ), 5] 2).2 ≠ [0, 1] := by
  constructor
  · simp [top_k, pySliceTo, npArgsortDesc, idxLE, List.insertionSort,
      List.orderedInsert, List.range_succ]
  · simp [top_k, pySliceTo, npArgsortDesc, idxLE, List.insertionSort,
      List.orderedInsert, List.range_succ]

/-- C3 (amended): for every score vector and every `k ≥ 1`, `top_k` returns
exactly `min(k, corpus_size)` score entries and index entries; the scores are
sorted descending; the indices are sorted by score descending with ties
broken toward the HIGHER ordinal first; and the returned scores are exactly
the score-vector values at the returned indices. -/
theorem C3_amended (v : List ℚ) (k : ℤ) (hk : 1 ≤ k) :
    ((top_k v k).1.length = min k.toNat v.length ∧
     (top_k v k).2.length = min k.toNat v.length) ∧
    (top_k v k).1.Pairwise (· ≥ ·) ∧
    (top_k v k).2.Pairwise
      (fun i j => v.getD j 0 < v.getD i 0 ∨
        (v.getD i 0 = v.getD j 0 ∧ j < i)) ∧
    (top_k v k).1 = (top_k v k).2.map (fun i => v.getD i 0) := by
  have h0k : (0 : ℤ) ≤ k := by omega
  have hfst : (top_k v k).1 = (npSortDesc v).take k.toNat := by
    simp only [top_k]
    rw [pySliceTo, if_pos h0k]
  have hsnd : (top_k v k).2 = (npArgsortDesc v).take k.toNat := by
    simp only [top_k]
    rw [pySliceTo, if_pos h0k]
  have hsorted : (npSortDesc v).Pairwise (· ≥ ·) := by
    rw [npSortDesc]
    refine List.pairwise_reverse.mpr ?_
    exact (List.sorted_insertionSort (· ≤ ·) v).imp (fun h => h)
  have hargs : (npArgsortDesc v).Pairwise
      (fun i j => v.getD j 0 < v.getD i 0 ∨
        (v.getD i 0 = v.getD j 0 ∧ j < i)) := by
    rw [npArgsortDesc]
    apply List.pairwise_reverse.mpr
    have hs := List.sorted_insertionSort (idxLE v) (List.range v.length)
    have hnd : ((List.range v.length).insertionSort (idxLE v)).Pairwise
        (fun i j : ℕ => i ≠ j) :=
      ((List.perm_insertionSort (idxLE v) (List.range v.length)).nodup_iff).mpr
        (List.nodup_range v.length)
    refine (hs.and hnd).imp ?_
    rintro a b ⟨hab, hne⟩
    rcases hab with h | ⟨h, hle⟩
    · exact Or.inl h
    · exact Or.inr ⟨h.symm, lt_of_le_of_ne hle hne⟩
  refine ⟨⟨?_, ?_⟩, ?_, ?_, ?_⟩
  · rw [hfst, List.length_take, length_npSortDesc]
  · rw [hsnd, List.length_take, length_npArgsortDesc]
  · rw [hfst]
    exact List.Pairwise.sublist (List.take_sublist _ _) hsorted
  · rw [hsnd]
    exact List.Pairwise.sublist (List.take_sublist _ _) hargs
  · rw [hfst, hsnd, npSortDesc_eq_map_argsort, List.map_take]

/-- C3 (witness): the amended theorem applied to the concrete score vector
`[1, 2, 2]` (a tie between documents 1 and 2) and `k = 2`: the result has
two entries, scores `[2, 2]` descending, indices `[2, 1]` (higher ordinal
first on the tie), and the scores match the values at those indices. -/
theorem C3_witness :
    (1 : ℤ) ≤ 2 ∧
    (((top_k [(1 : ℚ), 2, 2] 2).1.length =
        min (2 : ℤ).toNat ([(1 : ℚ), 2, 2]).length ∧
      (top_k [(1 : ℚ), 2, 2] 2).2.length =
        min (2 : ℤ).toNat ([(1 : ℚ), 2, 2]).length) ∧
     (top_k [(1 : ℚ), 2, 2] 2).1.Pairwise (· ≥ ·) ∧
     (top_k [(1 : ℚ), 2, 2] 2).2.Pairwise
       (fun i j => ([(1 : ℚ), 2, 2]).getD j 0 < ([(1 : ℚ), 2, 2]).getD i 0 ∨
         (([(1 : ℚ), 2, 2]).getD i 0 = ([(1 : ℚ), 2, 2]).getD j 0 ∧ j < i)) ∧
     (top_k [(1 : ℚ), 2, 2] 2).1 =
       (top_k [(1 : ℚ), 2, 2] 2).2.map (fun i => ([(1 : ℚ), 2, 2]).getD i 0)) :=
  ⟨by decide, C3_amended [1, 2, 2] 2 (by decide)⟩

/-- Auxiliary: reduction of the `Except` monad bind on a success value. -/
theorem pyBindOk (a : α) (f : α → Except PyError β) :
    (bind (Except.ok a) f : Except PyError β) = f a := rfl

/-- Auxiliary: reduction of the `Except` monad bind on an error value. -/
theorem pyBindErr (e : PyError) (f : α → Except PyError β) :
    (bind (Except.error e) f : Except PyError β) = Except.error e := rfl

/-- Auxiliary: a successful `mapME` produces one output per input, each the
successful image of the corresponding input. -/
theorem mapME_ok_pointwise (f : α → Except PyError β) :
    ∀ (l : List α) (out : List β), mapME f l = .ok out →
      out.length = l.length ∧
      ∀ i (h1 : i < l.length) (h2 : i < out.length),
        f (l.get ⟨i, h1⟩) = .ok (out.get ⟨i, h2⟩)
  | [], out, h => by
    rw [mapME] at h
    cases h
    exact ⟨rfl, fun i h1 _ => absurd h1 (Nat.not_lt_zero i)⟩
  | a :: as, out, h => by
    rw [mapME] at h
    cases hfa : f a with
    | error e => rw [hfa, pyBindErr] at h; cases h
    | ok b =>
      rw [hfa, pyBindOk] at h
      cases hrest : mapME f as with
      | error e => rw [hrest, pyBindErr] at h; cases h
      | ok bs =>
        rw [hrest, pyBindOk] at h
        cases h
        obtain ⟨hlen, hpt⟩ := mapME_ok_pointwise f as bs hrest
        refine ⟨by simp [hlen], ?_⟩
        intro i h1 h2
        match i with
        | 0 => simpa using hfa
        | n + 1 =>
          simpa using hpt n (by simpa using h1) (by simpa using h2)

/-- C8 (counterexample): a batch record that carries a ground-truth
`context` but no `answers` key: the claim says `original_context` should be
present (copied from `context`), but because line 129 requires BOTH keys,
the output record carries neither `original_context` nor `answers`. -/
theorem C8_counterexample :
    (⟨"cat", "id1", some "orig", none⟩ : Record).context = some "orig" ∧
    (BM25Plus.build mlog0 corpusW).bind
        (fun bm => retrieve (some bm) tokW wikiW fs0
          (.dataset [⟨"cat", "id1", some "orig", none⟩]) 1) =
      .ok (some (.batch [⟨"cat", "id1", [0], "cat", none, none⟩])) := by
  have ht : tokW "cat" = ["cat"] := rfl
  have he : ([(⟨"cat", "id1", some "orig", none⟩ : Record)]).enum =
      [(0, ⟨"cat", "id1", some "orig", none⟩)] := rfl
  have hi : String.intercalate " " ["cat"] = "cat" := rfl
  refine ⟨rfl, ?_⟩
  simp [BM25Plus.build, BM25Plus.get_scores, get_relevant_doc_bulk, retrieve,
    ht, he, hi, Except.bind, pyBindOk, pyBindErr, mlog0, corpusW, wikiW, fs0,
    List.range_succ, top_k, pySliceTo, npSortDesc, npArgsortDesc, idxLE,
    List.insertionSort, List.orderedInsert, mapME, pyGet, makeTmp]
  norm_num [pyBindOk, pyBindErr, mapME, pyGet, hi]

/-- C8 (amended): in a successful batch retrieval, each output record copies
`question` and `id` from its input record, and carries
`original_context`/`answers` exactly when the input record carries BOTH a
`context` and an `answers` key — in which case both input values are passed
through verbatim; when either key is missing, both output fields are
absent. -/
theorem C8_amended (bm : BM25Plus) (tokenize_fn : String → List Token)
    (wiki_text : List String) (fs : FileSystem) (examples : List Record)
    (topk : ℤ) (out : List OutRecord)
    (h : retrieve (some bm) tokenize_fn wiki_text fs
      (.dataset examples) topk = .ok (some (.batch out))) :
    out.length = examples.length ∧
    ∀ i (h1 : i < examples.length) (h2 : i < out.length),
      (out.get ⟨i, h2⟩).question = (examples.get ⟨i, h1⟩).question ∧
      (out.get ⟨i, h2⟩).id = (examples.get ⟨i, h1⟩).id ∧
      (out.get ⟨i, h2⟩).original_context =
        (if (examples.get ⟨i, h1⟩).context.isSome &&
            (examples.get ⟨i, h1⟩).answers.isSome
          then (examples.get ⟨i, h1⟩).context else none) ∧
      (out.get ⟨i, h2⟩).answers =
        (if (examples.get ⟨i, h1⟩).context.isSome &&
            (examples.get ⟨i, h1⟩).answers.isSome
          then (examples.get ⟨i, h1⟩).answers else none) := by
  simp only [retrieve] at h
  cases hbulk : get_relevant_doc_bulk bm tokenize_fn fs
      (examples.map Record.question) topk with
  | error e =>
    rw [hbulk, pyBindErr] at h
    cases h
  | ok r =>
    rw [hbulk, pyBindOk] at h
    obtain ⟨pair, ops⟩ := r
    dsimp only at h
    cases htot : mapME (fun p => do
        let ids ← pyGet pair.2 p.1
        let texts ← mapME (fun pid => pyGet wiki_text pid) ids
        .ok (makeTmp p.2 ids texts)) examples.enum with
    | error e =>
      rw [htot, pyBindErr] at h
      cases h
    | ok ts =>
      rw [htot, pyBindOk] at h
      have hts : ts = out := by
        injection h with h'
        injection h' with h''
        injection h'' with h'''
      subst hts
      obtain ⟨hlen, hpt⟩ := mapME_ok_pointwise _ _ _ htot
      rw [List.enum_length] at hlen
      refine ⟨hlen, ?_⟩
      intro i h1 h2
      have hi' : i < examples.enum.length := by rw [List.enum_length]; omega
      have hF := hpt i hi' h2
      rw [List.get_eq_getElem, List.getElem_enum] at hF
      dsimp only at hF
      cases hids : pyGet pair.2 i with
      | error e => rw [hids, pyBindErr] at hF; cases hF
      | ok ids =>
        rw [hids, pyBindOk] at hF
        cases htexts : mapME (fun pid => pyGet wiki_text pid) ids with
        | error e => rw [htexts, pyBindErr] at hF; cases hF
        | ok texts =>
          rw [htexts, pyBindOk] at hF
          have hout : ts.get ⟨i, h2⟩ =
              makeTmp (examples.get ⟨i, h1⟩) ids texts := by
            injection hF with h'
            exact h'.symm
          rw [hout]
          simp [makeTmp]

/-- C8 (witness): the amended theorem applied to a concrete batch with one
record carrying both `context` and `answers`; both are passed through
verbatim in the output record. -/
theorem C8_witness :
    ([(⟨"cat", "id2", [0], "cat", some "orig", some "ans"⟩ : OutRecord)]).length =
      ([(⟨"cat", "id2", some "orig", some "ans"⟩ : Record)]).length ∧
    ∀ i (h1 : i < ([(⟨"cat", "id2", some "orig", some "ans"⟩ : Record)]).length)
      (h2 : i <
        ([(⟨"cat", "id2", [0], "cat", some "orig", some "ans"⟩ : OutRecord)]).length),
      (([(⟨"cat", "id2", [0], "cat", some "orig", some "ans"⟩ : OutRecord)]).get
          ⟨i, h2⟩).question =
        (([(⟨"cat", "id2", some "orig", some "ans"⟩ : Record)]).get ⟨i, h1⟩).question ∧
      (([(⟨"cat", "id2", [0], "cat", some "orig", some "ans"⟩ : OutRecord)]).get
          ⟨i, h2⟩).id =
        (([(⟨"cat", "id2", some "orig", some "ans"⟩ : Record)]).get ⟨i, h1⟩).id ∧
      (([(⟨"cat", "id2", [0], "cat", some "orig", some "ans"⟩ : OutRecord)]).get
          ⟨i, h2⟩).original_context =
        (if (([(⟨"cat", "id2", some "orig", some "ans"⟩ : Record)]).get
              ⟨i, h1⟩).context.isSome &&
            (([(⟨"cat", "id2", some "orig", some "ans"⟩ : Record)]).get
              ⟨i, h1⟩).answers.isSome
          then (([(⟨"cat", "id2", some "orig", some "ans"⟩ : Record)]).get
            ⟨i, h1⟩).context else none) ∧
      (([(⟨"cat", "id2", [0], "cat", some "orig", some "ans"⟩ : OutRecord)]).get
          ⟨i, h2⟩).answers =
        (if (([(⟨"cat", "id2", some "orig", some "ans"⟩ : Record)]).get
              ⟨i, h1⟩).context.isSome &&
            (([(⟨"cat", "id2", some "orig", some "ans"⟩ : Record)]).get
              ⟨i, h1⟩).answers.isSome
          then (([(⟨"cat", "id2", some "orig", some "ans"⟩ : Record)]).get
            ⟨i, h1⟩).answers else none) := by
  have ht : tokW "cat" = ["cat"] := rfl
  have he : ([(⟨"cat", "id2", some "orig", some "ans"⟩ : Record)]).enum =
      [(0, ⟨"cat", "id2", some "orig", some "ans"⟩)] := rfl
  have hi : String.intercalate " " ["cat"] = "cat" := rfl
  have h : retrieve (some bmLit) tokW wikiW fs0
      (.dataset [⟨"cat", "id2", some "orig", some "ans"⟩]) 1 =
    .ok (some (.batch [⟨"cat", "id2", [0], "cat", some "orig", some "ans"⟩])) := by
    simp [BM25Plus.get_scores, bmLit, get_relevant_doc_bulk, retrieve,
      ht, he, hi, Except.bind, pyBindOk, pyBindErr, wikiW, fs0,
      List.range_succ, top_k, pySliceTo, npSortDesc, npArgsortDesc, idxLE,
      List.insertionSort, List.orderedInsert, mapME, pyGet, makeTmp]
    norm_num [pyBindOk, pyBindErr, mapME, pyGet, hi]
  exact C8_amended bmLit tokW wikiW fs0
    [⟨"cat", "id2", some "orig", some "ans"⟩] 1
    [⟨"cat", "id2", [0], "cat", some "orig", some "ans"⟩] h
